import Mathlib

/-!
Verification of the payment-reconciler core (the transaction-log parser
`parseMsgContent`, the reconciliation engine `processFiles`, and the driver's
empty-transaction guard) against its natural-language specification.

The TypeScript source is shallowly embedded: JS numbers are modelled as
exact rationals together with a `NaN` marker (`JsNum`); the floating-point
rounding of IEEE doubles is not modelled, since every claim concerns exact
decimal bookkeeping.  JS `Map` and `Set` are modelled by association lists
and lists, objects (spreadsheet rows) by association lists from column name
to cell value.  Library routines used by the source (`parseFloat`,
`String.prototype.localeCompare` with the `numeric` option, `Array.sort`)
are modelled explicitly below, each next to a comment stating the modelled
behaviour.
-/

/-- A JS number: either NaN or an exact rational value. -/
inductive JsNum where
  | nan : JsNum
  | val (q : Rat) : JsNum
deriving DecidableEq

/-- JS addition: NaN is absorbing, otherwise exact rational addition. -/
def JsNum.add : JsNum → JsNum → JsNum
  | .val a, .val b => .val (a + b)
  | _, _ => .nan

/-- Characters treated as whitespace by the embedding (the JS `\s` class and
`String.prototype.trim`, restricted to the ASCII range plus NBSP; the exotic
Unicode space code points never occur in the log formats at hand). -/
def isJsWs (c : Char) : Bool :=
  c == ' ' || c == '\t' || c == '\n' || c == '\r' ||
    c == '\x0b' || c == '\x0c' || c == ' '

/-- JS `String.prototype.trim`: strip whitespace from both ends. -/
def jsTrim (s : String) : String :=
  String.mk (((s.toList.dropWhile isJsWs).reverse.dropWhile isJsWs).reverse)

/-- Value of a list of ASCII digit characters, most significant first. -/
def digitsToNat (ds : List Char) : Nat :=
  ds.foldl (fun n c => 10 * n + (c.toNat - 48)) 0

/-- Ten to an integer power, as a rational. -/
def pow10Z (e : Int) : Rat :=
  if 0 ≤ e then ((10 : Rat) ^ e.toNat) else 1 / ((10 : Rat) ^ (-e).toNat)

/-- JS `parseFloat`: skip leading whitespace, read an optional sign, integer
digits, an optional fraction, and an optional well-formed exponent; the
longest valid numeric prefix is converted and the rest of the string is
ignored.  If no digits are found the result is NaN.  (The `Infinity`
literal, irrelevant to these log formats, is not modelled.) -/
def jsParseFloat (s : String) : JsNum :=
  let cs0 := s.toList.dropWhile isJsWs
  let sign : Rat := match cs0 with
    | '-' :: _ => -1
    | _ => 1
  let cs := match cs0 with
    | '+' :: r => r
    | '-' :: r => r
    | r => r
  let ipart := cs.takeWhile Char.isDigit
  let cs1 := cs.dropWhile Char.isDigit
  let fpart := match cs1 with
    | '.' :: r => r.takeWhile Char.isDigit
    | _ => []
  let cs2 := match cs1 with
    | '.' :: r => r.dropWhile Char.isDigit
    | r => r
  if ipart.isEmpty && fpart.isEmpty then .nan
  else
    let base : Rat :=
      (digitsToNat ipart : Rat) + (digitsToNat fpart : Rat) / ((10 : Rat) ^ fpart.length)
    let expVal : Int := match cs2 with
      | 'e' :: r | 'E' :: r =>
        let esign : Int := match r with
          | '-' :: _ => -1
          | _ => 1
        let r' := match r with
          | '+' :: r' => r'
          | '-' :: r' => r'
          | r' => r'
        let eds := r'.takeWhile Char.isDigit
        if eds.isEmpty then 0 else esign * (digitsToNat eds : Int)
      | _ => 0
    .val (sign * (base * pow10Z expVal))

/-- JS `value.replace(/,/g, '')`: delete every comma. -/
def stripCommas (s : String) : String :=
  String.mk (s.toList.filter (fun c => !(c == ',')))

/-- Render a nonnegative rational whose denominator divides a power of ten as
a plain decimal string without trailing zeros, the way JS prints such
numbers.  (Arbitrary rationals cannot arise from `jsParseFloat`; the
fallback branch keeps the function total.) -/
def ratToDecimalString (q : Rat) : String :=
  match (List.range 40).find? (fun k => (q * (10 : Rat) ^ k).den == 1) with
  | some k =>
    let n := (q * (10 : Rat) ^ k).num.toNat
    if k == 0 then toString n
    else
      let fs := toString (n % 10 ^ k)
      toString (n / 10 ^ k) ++ "." ++
        String.mk (List.replicate (k - fs.length) '0') ++ fs
  | none => toString q.num ++ "/" ++ toString q.den

/-- JS number-to-string conversion (used by `Array.prototype.join` inside the
deduplication key): NaN prints as "NaN", finite decimals in their shortest
decimal form.  (Exponent form for huge magnitudes is not modelled.) -/
def JsNum.render : JsNum → String
  | .nan => "NaN"
  | .val q => if q < 0 then "-" ++ ratToDecimalString (-q) else ratToDecimalString q

/-- A normalized transaction record (`MsgTransaction` in the source). -/
structure MsgTransaction where
  merchantNumber : String
  cardNumber : String
  tranAmount : JsNum
  commission : JsNum
  netAmount : JsNum
  authId : String
deriving DecidableEq

/-- Substring test at the head of a character list. -/
def headMatches : List Char → List Char → Bool
  | [], _ => true
  | _ :: _, [] => false
  | p :: ps, c :: cs => p == c && headMatches ps cs

/-- Substring search over character lists. -/
def containsAux (pat : List Char) : List Char → Bool
  | [] => headMatches pat []
  | c :: cs => headMatches pat (c :: cs) || containsAux pat cs

/-- JS `String.prototype.includes`. -/
def containsSub (s pat : String) : Bool :=
  containsAux pat.toList s.toList

/-- Case-insensitive literal match at the head of a character list, returning
the remainder on success (the `/i` flag, ASCII case folding). -/
def matchCaseless : List Char → List Char → Option (List Char)
  | [], cs => some cs
  | _ :: _, [] => none
  | p :: ps, c :: cs => if p.toLower == c.toLower then matchCaseless ps cs else none

/-- Try the regex `/MERCHANT NUMBER\s*:\s*(\d+)/i` anchored at this
position; on success return the captured digit run (greedy `\d+`). -/
def merchantTryAt (cs : List Char) : Option String :=
  match matchCaseless "MERCHANT NUMBER".toList cs with
  | none => none
  | some r =>
    match r.dropWhile isJsWs with
    | ':' :: r' =>
      let ds := (r'.dropWhile isJsWs).takeWhile Char.isDigit
      if ds.isEmpty then none else some (String.mk ds)
    | _ => none

/-- Leftmost match of the merchant-number regex in a line. -/
def findMerchant : List Char → Option String
  | [] => none
  | c :: cs =>
    match merchantTryAt (c :: cs) with
    | some d => some d
    | none => findMerchant cs

/-- A character allowed in the masked middle of a card number: `[X\d]`. -/
def isXDigitChar (c : Char) : Bool := c == 'X' || c.isDigit

/-- The data-line test `^\d{6}[X\d]+\d{4}`: six digits, then a nonempty run
of digits or `X`, then four digits, anchored at the start of the (trimmed)
line.  Backtracking over the greedy middle run is an existential over its
length. -/
def dataLineTest (s : String) : Bool :=
  let cs := s.toList
  ((cs.take 6).length == 6 && (cs.take 6).all Char.isDigit) &&
    (List.range (cs.length + 1)).any (fun k =>
      decide (1 ≤ k) &&
        ((cs.drop 6).take k).length == k && ((cs.drop 6).take k).all isXDigitChar &&
        ((cs.drop (6 + k)).take 4).length == 4 && ((cs.drop (6 + k)).take 4).all Char.isDigit)

/-- State for splitting a line on runs of two or more whitespace characters:
completed fields, the current field, and a pending whitespace run. -/
structure SplitState where
  fields : List String
  cur : List Char
  ws : List Char

/-- One step of the whitespace-run splitter. -/
def splitStep (st : SplitState) (c : Char) : SplitState :=
  if isJsWs c then { st with ws := st.ws ++ [c] }
  else if 2 ≤ st.ws.length then
    { fields := st.fields ++ [String.mk st.cur], cur := [c], ws := [] }
  else
    { fields := st.fields, cur := st.cur ++ st.ws ++ [c], ws := [] }

/-- JS `str.split(/\s{2,}/)`: every maximal run of at least two whitespace
characters separates fields; shorter runs stay inside their field. -/
def splitWsRuns (s : String) : List String :=
  let st := s.toList.foldl splitStep ⟨[], [], []⟩
  if 2 ≤ st.ws.length then st.fields ++ [String.mk st.cur, ""]
  else st.fields ++ [String.mk (st.cur ++ st.ws)]

/-- Per-line step of `parseMsgContent`: update the current merchant number
from the merchant-number regex, skip table-marker lines, and on a data line
with at least nine fields emit a transaction from fields 0, 3, 5, 6 and 8
with thousands separators stripped before the numeric parse.  (The source
also toggles a dead `inTable` flag on separator lines; it never affects the
output and is omitted.) -/
def parseLine (merchant : String) (line : String) : String × Option MsgTransaction :=
  let merchant' := match findMerchant line.toList with
    | some d => d
    | none => merchant
  if containsSub line "Visa / Master Transactions" then (merchant', none)
  else if containsSub line "=====" then (merchant', none)
  else
    let t := jsTrim line
    if dataLineTest t then
      let parts := splitWsRuns t
      if 9 ≤ parts.length then
        (merchant', some {
          merchantNumber := merchant'
          cardNumber := parts.getD 0 ""
          tranAmount := jsParseFloat (stripCommas (parts.getD 3 ""))
          commission := jsParseFloat (stripCommas (parts.getD 5 ""))
          netAmount := jsParseFloat (stripCommas (parts.getD 6 ""))
          authId := parts.getD 8 "" })
      else (merchant', none)
    else (merchant', none)

/-- The fixed-width log parser `parseMsgContent`: split the file on newlines
and fold `parseLine` over the lines, threading the current merchant number
and accumulating emitted transactions in order. -/
def parseMsgContent (content : String) : List MsgTransaction :=
  ((content.splitOn "\n").foldl
    (fun st line =>
      let r := parseLine st.1 line
      (r.1, match r.2 with
        | some t => st.2 ++ [t]
        | none => st.2))
    (("", []) : String × List MsgTransaction)).2

/-- A spreadsheet cell: JS string or number.  (A missing column is an absent
key, surfacing as `none` from `getField`.) -/
inductive CellValue where
  | str (s : String) : CellValue
  | num (n : JsNum) : CellValue
deriving DecidableEq

/-- A spreadsheet row (`ExcelRow`): a JS object modelled as an association
list from column name to cell value, keys unique and in insertion order. -/
abbrev Row := List (String × CellValue)

/-- JS property read `row[k]`. -/
def getField (r : Row) (k : String) : Option CellValue :=
  (r.find? (fun p => p.1 == k)).map (fun p => p.2)

/-- JS property write (used to model object spread followed by the six
derived-column assignments): overwrite in place if the key exists, keeping
its position, else append the key at the end. -/
def setField (r : Row) (k : String) (v : CellValue) : Row :=
  if r.any (fun p => p.1 == k) then
    r.map (fun p => if p.1 == k then (k, v) else p)
  else r ++ [(k, v)]

/-- JS truthiness of a possibly-absent cell: `undefined`, the empty string,
`0` and `NaN` are falsy. -/
def truthyCell : Option CellValue → Bool
  | none => false
  | some (.str s) => !(s == "")
  | some (.num .nan) => false
  | some (.num (.val q)) => !(q == 0)

/-- JS `value.toString()` for a cell. -/
def cellToString : CellValue → String
  | .str s => s
  | .num n => n.render

/-- The deduplication key of `processFiles`: the six transaction fields
joined with a pipe, numbers rendered the way JS stringifies them. -/
def dedupKey (t : MsgTransaction) : String :=
  String.intercalate "|"
    [t.authId, t.merchantNumber, t.cardNumber,
      t.tranAmount.render, t.commission.render, t.netAmount.render]

/-- The `filter` over a growing `seenTransactions` set: keep the first
occurrence of each deduplication key. -/
def dedupAux (seen : List String) : List MsgTransaction → List MsgTransaction
  | [] => []
  | t :: ts =>
    if dedupKey t ∈ seen then dedupAux seen ts
    else t :: dedupAux (dedupKey t :: seen) ts

/-- The keys accumulated in the seen-set after a pass over a list. -/
def seenAfter (seen : List String) : List MsgTransaction → List String
  | [] => seen
  | t :: ts =>
    if dedupKey t ∈ seen then seenAfter seen ts
    else seenAfter (dedupKey t :: seen) ts

/-- The `uniqueMsgTransactions` filter of `processFiles`. -/
def uniqueMsgTransactions (ts : List MsgTransaction) : List MsgTransaction :=
  dedupAux [] ts

/-- The auth-id index, a JS `Map` modelled as an association list. -/
abbrev MsgMap := List (String × MsgTransaction)

/-- JS `Map.prototype.get`. -/
def mapGet (m : MsgMap) (k : String) : Option MsgTransaction :=
  (m.find? (fun p => p.1 == k)).map (fun p => p.2)

/-- JS `Map.prototype.set`: overwrite in place if the key exists (last write
wins), else append. -/
def mapSet (m : MsgMap) (k : String) (v : MsgTransaction) : MsgMap :=
  if m.any (fun p => p.1 == k) then
    m.map (fun p => if p.1 == k then (k, v) else p)
  else m ++ [(k, v)]

/-- The `msgMap` build: index the deduplicated transactions by `authId`. -/
def msgMap (uniq : List MsgTransaction) : MsgMap :=
  uniq.foldl (fun m t => mapSet m t.authId t) []

/-- JS `voucherNo.replace(/^0+/, '')`. -/
def stripLeadingZeros (s : String) : String :=
  String.mk (s.toList.dropWhile (fun c => c == '0'))

/-- Whether a string starts with the character `0`. -/
def startsWithZero (s : String) : Bool :=
  match s.toList with
  | '0' :: _ => true
  | _ => false

/-- The join step for one spreadsheet row: look up the voucher number (if
truthy) in the index, falling back to the voucher with leading zeros
stripped when the voucher is a string starting with `0`. -/
def rowMatch (m : MsgMap) (row : Row) : Option MsgTransaction :=
  let voucherNo := getField row "Voucher No."
  if truthyCell voucherNo then
    let key := match voucherNo with
      | some v => cellToString v
      | none => ""
    match mapGet m key with
    | some t => some t
    | none =>
      match voucherNo with
      | some (.str s) =>
        if startsWithZero s then mapGet m (stripLeadingZeros s) else none
      | _ => none
  else none

/-- The six derived columns appended to a spreadsheet row: populated from
the matched transaction, or all blank strings when unmatched. -/
def derivedPairs : Option MsgTransaction → List (String × CellValue)
  | some t =>
    [("AUTH", .str t.authId), ("MERCHANT NUMBER", .str t.merchantNumber),
      ("TRX.AMT", .num t.tranAmount), ("CARD NUMBER", .str t.cardNumber),
      ("COM. AMOUNT", .num t.commission), ("NET. AMT", .num t.netAmount)]
  | none =>
    [("AUTH", .str ""), ("MERCHANT NUMBER", .str ""), ("TRX.AMT", .str ""),
      ("CARD NUMBER", .str ""), ("COM. AMOUNT", .str ""), ("NET. AMT", .str "")]

/-- Row augmentation `{...row, AUTH: ..., ..., 'NET. AMT': ...}`. -/
def augmentRow (m : MsgMap) (row : Row) : Row :=
  (derivedPairs (rowMatch m row)).foldl (fun r kv => setField r kv.1 kv.2) row

/-- The augmented table before sorting (`updatedData` in the source).  The
source computes it in the same `map` that accumulates the totals; the match
of each row depends only on the index, so the accumulations are split into
the separate folds below. -/
def updatedData (m : MsgMap) (rows : List Row) : List Row :=
  rows.map (augmentRow m)

/-- The per-row matches in row order; the source's running totals and
`matchedAuthIds` set are folds over this list. -/
def matchedList (m : MsgMap) (rows : List Row) : List MsgTransaction :=
  rows.filterMap (rowMatch m)

/-- The `matchedAuthIds` set, as the list of matched auth ids in row order. -/
def matchedAuthIds (m : MsgMap) (rows : List Row) : List String :=
  (matchedList m rows).map (fun t => t.authId)

/-- The per-row `existingTotal`: a numeric `Total` cell is used directly,
anything else is stringified (empty or absent becoming "0"), stripped of
commas and parsed. -/
def existingNum (row : Row) : JsNum :=
  match getField row "Total" with
  | some (.num n) => n
  | some (.str s) => jsParseFloat (stripCommas (if s == "" then "0" else s))
  | none => jsParseFloat (stripCommas "0")

/-- The `totalExisting` accumulation: add each row's parsed total, skipping
NaN parses. -/
def sumExisting (rows : List Row) : JsNum :=
  rows.foldl
    (fun acc r => match existingNum r with
      | .nan => acc
      | v => acc.add v)
    (JsNum.val 0)

/-- Sum of a list of JS numbers, starting from 0 as the source's
accumulators do. -/
def jsSum (l : List JsNum) : JsNum :=
  l.foldl JsNum.add (JsNum.val 0)

/-- The summary record of `processFiles`. -/
structure Summary where
  totalExisting : JsNum
  totalTrx : JsNum
  totalCommission : JsNum
  totalNet : JsNum
  matchedCount : Nat
deriving DecidableEq

/-- The summary assembled from the accumulation folds. -/
def mkSummary (m : MsgMap) (rows : List Row) : Summary :=
  { totalExisting := sumExisting rows
    totalTrx := jsSum ((matchedList m rows).map (fun t => t.tranAmount))
    totalCommission := jsSum ((matchedList m rows).map (fun t => t.commission))
    totalNet := jsSum ((matchedList m rows).map (fun t => t.netAmount))
    matchedCount := (matchedList m rows).length }

/-- A standalone appendix row for an unmatched transaction. -/
def mkUnmatchedRow (t : MsgTransaction) : Row :=
  [("#", .str ""), ("Voucher No.", .str ""), ("Total", .str ""),
    ("AUTH", .str t.authId), ("MERCHANT NUMBER", .str t.merchantNumber),
    ("TRX.AMT", .num t.tranAmount), ("CARD NUMBER", .str t.cardNumber),
    ("COM. AMOUNT", .num t.commission), ("NET. AMT", .num t.netAmount)]

/-- The unmatched appendix rows: deduplicated transactions whose auth id was
never a join hit. -/
def unmatchedRows (m : MsgMap) (rows : List Row) (uniq : List MsgTransaction) : List Row :=
  (uniq.filter (fun t => !((matchedAuthIds m rows).contains t.authId))).map mkUnmatchedRow

/-- The string a row contributes to the merchant/auth comparator:
`(row[k] || '').toString().trim()`. -/
def cellForCompare (v : Option CellValue) : String :=
  jsTrim (match v with
    | some (.str s) => s
    | some (.num (.val q)) => if q == 0 then "" else JsNum.render (.val q)
    | some (.num .nan) => ""
    | none => "")

/-- Ordering as the JS comparator integer. -/
def ordToInt : Ordering → Int
  | .lt => -1
  | .eq => 0
  | .gt => 1

/-- Three-way comparison on naturals. -/
def natCmp (a b : Nat) : Ordering :=
  if a < b then .lt else if b < a then .gt else .eq

/-- Three-way comparison on pairs of naturals, first component first. -/
def pairCmp (x y : Nat × Nat) : Ordering :=
  match natCmp x.1 y.1 with
  | .eq => natCmp x.2 y.2
  | o => o

/-- Lexicographic three-way comparison on token lists. -/
def lexCmp : List (Nat × Nat) → List (Nat × Nat) → Ordering
  | [], [] => .eq
  | [], _ :: _ => .lt
  | _ :: _, [] => .gt
  | a :: as, b :: bs =>
    match pairCmp a b with
    | .eq => lexCmp as bs
    | o => o

/-- State for tokenizing a string for numeric-aware comparison. -/
structure TokState where
  toks : List (Nat × Nat)
  run : List Char

/-- One tokenizer step: digits accumulate into a run; any other character
closes the pending run (as a numeric token) and emits a character token. -/
def tokStep (st : TokState) (c : Char) : TokState :=
  if c.isDigit then { st with run := st.run ++ [c] }
  else
    let ts := if st.run.isEmpty then st.toks else st.toks ++ [(0, digitsToNat st.run)]
    { toks := ts ++ [(1, c.toNat)], run := [] }

/-- Sort key of a string for the numeric-aware comparison: maximal digit
runs become numeric tokens (tag 0, compared by value, so runs of different
lengths with equal value compare equal), other characters become code-point
tokens (tag 1); numeric tokens order before character tokens. -/
def strKey (s : String) : List (Nat × Nat) :=
  let st := s.toList.foldl tokStep ⟨[], []⟩
  if st.run.isEmpty then st.toks else st.toks ++ [(0, digitsToNat st.run)]

/-- Model of JS `a.localeCompare(b, undefined, { numeric: true })`: compare
the token keys lexicographically.  (The full ICU collation — case and
punctuation weighting — is not modelled; the comparator is only applied to
trimmed merchant numbers and auth ids, which are digit strings.) -/
def localeCompareNumeric (a b : String) : Int :=
  ordToInt (lexCmp (strKey a) (strKey b))

/-- The `byMerchantNumber` comparator: rows with blank merchant number sort
last, otherwise numeric-aware comparison of merchant numbers, ties broken by
the same comparison of auth ids. -/
def byMerchantNumber (a b : Row) : Int :=
  let mA := cellForCompare (getField a "MERCHANT NUMBER")
  let mB := cellForCompare (getField b "MERCHANT NUMBER")
  if mA == "" && !(mB == "") then 1
  else if !(mA == "") && mB == "" then -1
  else
    let mc := localeCompareNumeric mA mB
    if mc ≠ 0 then mc
    else
      localeCompareNumeric
        (cellForCompare (getField a "AUTH"))
        (cellForCompare (getField b "AUTH"))

/-- The sort order used by the engine: comparator at most zero. -/
def rowLe (a b : Row) : Prop := byMerchantNumber a b ≤ 0

instance : DecidableRel rowLe := fun _ _ => Int.decLe _ _

/-- Model of `[...xs].sort(byMerchantNumber)`: a stable sort consistent with
the comparator (JS `Array.prototype.sort` is stable and, for a consistent
comparator, produces a list ordered by it). -/
def sortRows (l : List Row) : List Row :=
  List.insertionSort rowLe l

/-- The totals row: four sums in their columns, label TOTAL in the
voucher-number column. -/
def totalsRow (s : Summary) : Row :=
  [("#", .str ""), ("Voucher No.", .str "TOTAL"), ("Total", .num s.totalExisting),
    ("AUTH", .str ""), ("MERCHANT NUMBER", .str ""), ("TRX.AMT", .num s.totalTrx),
    ("CARD NUMBER", .str ""), ("COM. AMOUNT", .num s.totalCommission),
    ("NET. AMT", .num s.totalNet)]

/-- One blank spacer row. -/
def spacerRow : Row :=
  [("#", .str ""), ("Voucher No.", .str ""), ("Total", .str ""),
    ("AUTH", .str ""), ("MERCHANT NUMBER", .str ""), ("TRX.AMT", .str ""),
    ("CARD NUMBER", .str ""), ("COM. AMOUNT", .str ""), ("NET. AMT", .str "")]

/-- The appendix header row. -/
def unmatchedHeaderRow : Row :=
  [("#", .str ""), ("Voucher No.", .str ""), ("Total", .str ""),
    ("AUTH", .str "AUTH"), ("MERCHANT NUMBER", .str "MERCHANT NUMBER"),
    ("TRX.AMT", .str "TRX.AMT"), ("CARD NUMBER", .str "CARD NUMBER"),
    ("COM. AMOUNT", .str "COM. AMOUNT"), ("NET. AMT", .str "NET. AMT")]

/-- The result of `processFiles`. -/
structure ProcessedResult where
  updatedData : List Row
  summary : Summary
deriving DecidableEq

/-- The reconciliation engine `processFiles`: deduplicate, index, join,
accumulate, sort both sections and assemble the output table. -/
def processFiles (excelData : List Row) (msgTransactions : List MsgTransaction) :
    ProcessedResult :=
  let uniq := uniqueMsgTransactions msgTransactions
  let m := msgMap uniq
  let s := mkSummary m excelData
  { updatedData :=
      sortRows (updatedData m excelData) ++
        totalsRow s ::
          (List.replicate 5 spacerRow ++
            unmatchedHeaderRow :: sortRows (unmatchedRows m excelData uniq))
    summary := s }

/-- The driver's post-extraction behaviour (`handleProcess` in `App.tsx`,
after all files are parsed): with zero extracted transactions it reports a
user-facing error and never invokes `processFiles`; otherwise it publishes
the engine's result.  The pair models the `(error, result)` state it sets. -/
def handleProcess (excelData : List Row) (msgTransactions : List MsgTransaction) :
    Option String × Option ProcessedResult :=
  if msgTransactions.length == 0 then
    (some "No valid transactions found in the uploaded text files.", none)
  else (none, some (processFiles excelData msgTransactions))


/-! ### Deduplication lemmas -/

theorem dedupAux_append (xs ys : List MsgTransaction) :
    ∀ seen, dedupAux seen (xs ++ ys) = dedupAux seen xs ++ dedupAux (seenAfter seen xs) ys := by
  induction xs with
  | nil => intro seen; simp [dedupAux, seenAfter]
  | cons t ts ih =>
    intro seen
    by_cases h : dedupKey t ∈ seen
    · simp [dedupAux, seenAfter, h, ih]
    · simp [dedupAux, seenAfter, h, ih]

theorem mem_seenAfter (k : String) (xs : List MsgTransaction) :
    ∀ seen, k ∈ seen → k ∈ seenAfter seen xs := by
  induction xs with
  | nil => intro seen h; simpa [seenAfter] using h
  | cons t ts ih =>
    intro seen h
    by_cases hm : dedupKey t ∈ seen
    · simpa [seenAfter, hm] using ih seen h
    · simpa [seenAfter, hm] using ih _ (List.mem_cons_of_mem _ h)

theorem dedupKey_mem_seenAfter (t : MsgTransaction) :
    ∀ xs, t ∈ xs → ∀ seen, dedupKey t ∈ seenAfter seen xs := by
  intro xs
  induction xs with
  | nil => intro ht; cases ht
  | cons x ts ih =>
    intro ht seen
    rcases List.mem_cons.mp ht with h | h
    · subst h
      by_cases hm : dedupKey t ∈ seen
      · simpa [seenAfter, hm] using mem_seenAfter _ _ _ hm
      · simpa [seenAfter, hm] using mem_seenAfter _ _ _ (List.mem_cons_self _ _)
    · by_cases hm : dedupKey x ∈ seen
      · simpa [seenAfter, hm] using ih h _
      · simpa [seenAfter, hm] using ih h _

theorem dedupAux_eq_nil_of_seen (ys : List MsgTransaction) :
    ∀ seen, (∀ t ∈ ys, dedupKey t ∈ seen) → dedupAux seen ys = [] := by
  induction ys with
  | nil => intro _ _; rfl
  | cons t ts ih =>
    intro seen h
    have hm : dedupKey t ∈ seen := h t (List.mem_cons_self _ _)
    simp only [dedupAux, if_pos hm]
    exact ih seen (fun u hu => h u (List.mem_cons_of_mem _ hu))

theorem uniqueMsgTransactions_append_self (l : List MsgTransaction) :
    uniqueMsgTransactions (l ++ l) = uniqueMsgTransactions l := by
  unfold uniqueMsgTransactions
  rw [dedupAux_append]
  rw [dedupAux_eq_nil_of_seen l _ (fun t ht => dedupKey_mem_seenAfter t l ht [])]
  rw [List.append_nil]

/-- C5: deduplication is idempotent — reconciling with a transaction list
concatenated to itself yields output (rows and summary) identical to
reconciling with the list alone. -/
theorem spec_c5 (rows : List Row) (l : List MsgTransaction) :
    processFiles rows (l ++ l) = processFiles rows l := by
  simp only [processFiles, uniqueMsgTransactions_append_self]

/-- C9: with zero transactions extracted, the driver reports the user-facing
error and publishes no result — `processFiles` is never reached, so no table
or summary is produced. -/
theorem spec_c9 (rows : List Row) :
    handleProcess rows [] =
      (some "No valid transactions found in the uploaded text files.", none) := rfl

/-! ### Output assembly -/

/-- C2: the output of `processFiles` is the sorted augmented rows, then one
totals row (the four sums in their columns, label TOTAL in the
voucher-number column), then 5 blank spacer rows, then the appendix header
row, then the sorted unmatched rows; its length is
`rows.length + 1 + 5 + 1 + U` where `U` counts the deduplicated
transactions whose auth id was not a join hit. -/
theorem spec_c2 (rows : List Row) (txs : List MsgTransaction) :
    (processFiles rows txs).updatedData
      = sortRows (updatedData (msgMap (uniqueMsgTransactions txs)) rows) ++
          totalsRow (mkSummary (msgMap (uniqueMsgTransactions txs)) rows) ::
            (List.replicate 5 spacerRow ++
              unmatchedHeaderRow ::
                sortRows (unmatchedRows (msgMap (uniqueMsgTransactions txs)) rows
                  (uniqueMsgTransactions txs)))
    ∧ (processFiles rows txs).updatedData.length
        = rows.length + 1 + 5 + 1 +
            ((uniqueMsgTransactions txs).filter
              (fun t => !((matchedAuthIds (msgMap (uniqueMsgTransactions txs)) rows).contains
                t.authId))).length
    ∧ getField (totalsRow (mkSummary (msgMap (uniqueMsgTransactions txs)) rows)) "Voucher No."
        = some (.str "TOTAL")
    ∧ getField (totalsRow (mkSummary (msgMap (uniqueMsgTransactions txs)) rows)) "Total"
        = some (.num (sumExisting rows))
    ∧ getField (totalsRow (mkSummary (msgMap (uniqueMsgTransactions txs)) rows)) "TRX.AMT"
        = some (.num (jsSum ((matchedList (msgMap (uniqueMsgTransactions txs)) rows).map
            (fun t => t.tranAmount))))
    ∧ getField (totalsRow (mkSummary (msgMap (uniqueMsgTransactions txs)) rows)) "COM. AMOUNT"
        = some (.num (jsSum ((matchedList (msgMap (uniqueMsgTransactions txs)) rows).map
            (fun t => t.commission))))
    ∧ getField (totalsRow (mkSummary (msgMap (uniqueMsgTransactions txs)) rows)) "NET. AMT"
        = some (.num (jsSum ((matchedList (msgMap (uniqueMsgTransactions txs)) rows).map
            (fun t => t.netAmount)))) := by
  refine ⟨rfl, ?_, by with_unfolding_all rfl, by with_unfolding_all rfl,
    by with_unfolding_all rfl, by with_unfolding_all rfl, by with_unfolding_all rfl⟩
  show (sortRows (updatedData _ rows) ++
      totalsRow _ :: (List.replicate 5 spacerRow ++ unmatchedHeaderRow :: sortRows _)).length = _
  simp only [sortRows, updatedData, unmatchedRows, List.length_append, List.length_cons,
    List.length_insertionSort, List.length_map, List.length_replicate]
  omega

/-! ### The leading-zero join fallback -/

/-- C4: for a spreadsheet row whose voucher number is a string starting with
a zero, an exact hit in the auth-id index is always used; only when the
exact lookup misses is the voucher retried with all leading zeros
stripped. -/
theorem spec_c4 (txs : List MsgTransaction) (row : Row) (v : String)
    (hv : getField row "Voucher No." = some (.str v)) (h0 : startsWithZero v = true) :
    (∀ t, mapGet (msgMap (uniqueMsgTransactions txs)) v = some t →
        rowMatch (msgMap (uniqueMsgTransactions txs)) row = some t)
    ∧ (mapGet (msgMap (uniqueMsgTransactions txs)) v = none →
        rowMatch (msgMap (uniqueMsgTransactions txs)) row
          = mapGet (msgMap (uniqueMsgTransactions txs)) (stripLeadingZeros v)) := by
  have hne : v ≠ "" := by
    intro h
    rw [h] at h0
    exact absurd h0 (by with_unfolding_all decide)
  have hbe : (v == "") = false := beq_eq_false_iff_ne.mpr hne
  constructor
  · intro t ht
    unfold rowMatch
    rw [hv]
    simp [truthyCell, hbe, cellToString, ht]
  · intro hn
    unfold rowMatch
    rw [hv]
    simp [truthyCell, hbe, cellToString, hn, h0]

/-- Transactions for the C4 witness: one with a bare auth id and one with
the zero-padded auth id, so the exact match is available and wins. -/
def c4tBare : MsgTransaction :=
  ⟨"m1", "c1", .val 10, .val 1, .val 9, "74680"⟩

def c4tPadded : MsgTransaction :=
  ⟨"m2", "c2", .val 20, .val 2, .val 18, "074680"⟩

theorem spec_c4_witness :
    rowMatch (msgMap (uniqueMsgTransactions [c4tBare, c4tPadded]))
        [("Voucher No.", CellValue.str "074680")]
      = some c4tPadded :=
  (spec_c4 [c4tBare, c4tPadded] [("Voucher No.", CellValue.str "074680")] "074680"
      (by with_unfolding_all rfl) (by decide)).1
    c4tPadded (by with_unfolding_all rfl)

/-! ### The fixed-width log parser -/

/-- The sample data line of C6. -/
def c6line : String :=
  "532016XXXXXX3032  EDC  144  49,900.00  49,900.00  898.20  49,001.80  02/02/2026  074680  37012252"

set_option maxRecDepth 80000 in
/-- C6: the sample line parses to exactly one transaction with the claimed
card number, amounts and auth id; in general a data line is split on runs of
at least two whitespace characters, a line with fewer than nine fields is
silently ignored, and fields 3, 5, 6 and 8 map to the transaction amount,
commission, net amount and auth id with thousands separators stripped before
the numeric parse. -/
theorem spec_c6 :
    parseMsgContent c6line
      = [{ merchantNumber := ""
           cardNumber := "532016XXXXXX3032"
           tranAmount := JsNum.val 49900
           commission := JsNum.val (4491 / 5)
           netAmount := JsNum.val (245009 / 5)
           authId := "074680" }]
    ∧ (∀ merchant line, containsSub line "Visa / Master Transactions" = false →
        containsSub line "=====" = false →
        dataLineTest (jsTrim line) = true →
        9 ≤ (splitWsRuns (jsTrim line)).length →
        (parseLine merchant line).2 = some {
          merchantNumber := (parseLine merchant line).1
          cardNumber := (splitWsRuns (jsTrim line)).getD 0 ""
          tranAmount := jsParseFloat (stripCommas ((splitWsRuns (jsTrim line)).getD 3 ""))
          commission := jsParseFloat (stripCommas ((splitWsRuns (jsTrim line)).getD 5 ""))
          netAmount := jsParseFloat (stripCommas ((splitWsRuns (jsTrim line)).getD 6 ""))
          authId := (splitWsRuns (jsTrim line)).getD 8 "" })
    ∧ (∀ merchant line, (splitWsRuns (jsTrim line)).length < 9 →
        (parseLine merchant line).2 = none) := by
  refine ⟨by with_unfolding_all rfl, ?_, ?_⟩
  · intro merchant line h1 h2 h3 h4
    simp [parseLine, h1, h2, h3, h4]
  · intro merchant line h
    simp only [parseLine]
    split
    · rfl
    · split
      · rfl
      · split
        · split
          · omega
          · rfl
        · rfl

set_option maxRecDepth 80000 in
theorem spec_c6_witness :
    (parseLine "" c6line).2 = some {
      merchantNumber := (parseLine "" c6line).1
      cardNumber := (splitWsRuns (jsTrim c6line)).getD 0 ""
      tranAmount := jsParseFloat (stripCommas ((splitWsRuns (jsTrim c6line)).getD 3 ""))
      commission := jsParseFloat (stripCommas ((splitWsRuns (jsTrim c6line)).getD 5 ""))
      netAmount := jsParseFloat (stripCommas ((splitWsRuns (jsTrim c6line)).getD 6 ""))
      authId := (splitWsRuns (jsTrim c6line)).getD 8 "" } :=
  spec_c6.2.1 "" c6line (by with_unfolding_all rfl) (by with_unfolding_all rfl)
    (by with_unfolding_all rfl) (by decide)

/-! ### Field-access lemmas -/

theorem find?_cons_pos {α : Type} (p : α → Bool) (a : α) (l : List α) (h : p a = true) :
    List.find? p (a :: l) = some a := by
  simp [List.find?, h]

theorem find?_cons_neg {α : Type} (p : α → Bool) (a : α) (l : List α) (h : p a = false) :
    List.find? p (a :: l) = List.find? p l := by
  simp [List.find?, h]

theorem bool_eq_false {b : Bool} (h : ¬b = true) : b = false :=
  Bool.eq_false_iff.mpr h

theorem find?_map_overwrite (k : String) (v : CellValue) (r : Row) :
    (r.map (fun p => if p.1 == k then (k, v) else p)).find? (fun p => p.1 == k)
      = (r.find? (fun p => p.1 == k)).map (fun _ => (k, v)) := by
  induction r with
  | nil => rfl
  | cons p ps ih =>
    by_cases hp : (p.1 == k) = true
    · simp only [List.map_cons, if_pos hp]
      rw [find?_cons_pos (fun p => p.1 == k) (k, v) _ (by simp),
        find?_cons_pos (fun p => p.1 == k) p _ hp]
      rfl
    · simp only [List.map_cons, if_neg hp]
      rw [find?_cons_neg (fun p => p.1 == k) p _ (bool_eq_false hp),
        find?_cons_neg (fun p => p.1 == k) p _ (bool_eq_false hp), ih]

theorem getField_setField_same (r : Row) (k : String) (v : CellValue) :
    getField (setField r k v) k = some v := by
  unfold getField setField
  by_cases h : r.any (fun p => p.1 == k)
  · rw [if_pos h, find?_map_overwrite]
    obtain ⟨x, hx, hpx⟩ := List.any_eq_true.mp h
    have hs : (List.find? (fun p => p.1 == k) r).isSome := by
      rw [List.find?_isSome]
      exact ⟨x, hx, hpx⟩
    obtain ⟨y, hy⟩ := Option.isSome_iff_exists.mp hs
    rw [hy]
    rfl
  · rw [if_neg h, List.find?_append]
    have hnone : r.find? (fun p => p.1 == k) = none := by
      rw [List.find?_eq_none]
      intro x hx hc
      exact absurd (List.any_eq_true.mpr ⟨x, hx, hc⟩) h
    rw [hnone, find?_cons_pos (fun p => p.1 == k) (k, v) [] (by simp)]
    rfl

theorem find?_map_overwrite_ne (k k' : String) (v : CellValue) (hne : (k' == k) = false)
    (r : Row) :
    (r.map (fun p => if p.1 == k then (k, v) else p)).find? (fun p => p.1 == k')
      = r.find? (fun p => p.1 == k') := by
  have hne' : (k == k') = false := beq_eq_false_iff_ne.mpr (beq_eq_false_iff_ne.mp hne).symm
  induction r with
  | nil => rfl
  | cons p ps ih =>
    by_cases hp : (p.1 == k) = true
    · have hk : p.1 = k := eq_of_beq hp
      simp only [List.map_cons, if_pos hp]
      rw [find?_cons_neg (fun p => p.1 == k') (k, v) _ (by simpa using hne'),
        find?_cons_neg (fun p => p.1 == k') p _ (by simpa [hk] using hne')]
      exact ih
    · simp only [List.map_cons, if_neg hp]
      by_cases hq : (p.1 == k') = true
      · rw [find?_cons_pos (fun p => p.1 == k') p _ hq,
          find?_cons_pos (fun p => p.1 == k') p _ hq]
      · rw [find?_cons_neg (fun p => p.1 == k') p _ (bool_eq_false hq),
          find?_cons_neg (fun p => p.1 == k') p _ (bool_eq_false hq)]
        exact ih

theorem getField_setField_ne (r : Row) (k k' : String) (v : CellValue)
    (hne : (k' == k) = false) :
    getField (setField r k v) k' = getField r k' := by
  unfold getField setField
  by_cases h : r.any (fun p => p.1 == k)
  · rw [if_pos h, find?_map_overwrite_ne _ _ _ hne]
  · have hne' : (k == k') = false := beq_eq_false_iff_ne.mpr (beq_eq_false_iff_ne.mp hne).symm
    rw [if_neg h, List.find?_append,
      find?_cons_neg (fun p => p.1 == k') (k, v) [] (by simpa using hne')]
    cases hf : r.find? (fun p => p.1 == k') <;> simp [hf, List.find?]

/-! ### Falsy vouchers -/

theorem processFiles_summary (rows : List Row) (txs : List MsgTransaction) :
    (processFiles rows txs).summary
      = mkSummary (msgMap (uniqueMsgTransactions txs)) rows := rfl

/-- The rational a row contributes to `totalExisting` (0 for a NaN parse). -/
def contribRat (row : Row) : Rat :=
  match existingNum row with
  | .nan => 0
  | .val q => q

theorem sumExisting_foldl (rows : List Row) :
    ∀ a : Rat,
      rows.foldl
          (fun acc r => match existingNum r with
            | .nan => acc
            | v => acc.add v)
          (JsNum.val a)
        = JsNum.val (a + (rows.map contribRat).sum) := by
  induction rows with
  | nil => intro a; simp
  | cons r rs ih =>
    intro a
    cases hx : existingNum r
    · simp only [List.foldl_cons, hx, List.map_cons, List.sum_cons]
      rw [ih]
      simp [contribRat, hx]
    · simp only [List.foldl_cons, hx, List.map_cons, List.sum_cons]
      show List.foldl _ (JsNum.val _) rs = _
      rw [ih]
      simp only [contribRat, hx]
      ring_nf

theorem sumExisting_eq (rows : List Row) :
    sumExisting rows = JsNum.val ((rows.map contribRat).sum) := by
  unfold sumExisting
  rw [sumExisting_foldl]
  simp

theorem rowMatch_none_of_falsy (row : Row)
    (h : getField row "Voucher No." = none ∨
      getField row "Voucher No." = some (.str "") ∨
      getField row "Voucher No." = some (.num (.val 0))) :
    ∀ m : MsgMap, rowMatch m row = none := by
  intro m
  unfold rowMatch
  rcases h with h | h | h <;> rw [h] <;> simp [truthyCell]

/-- C10: a row whose voucher number is missing, the empty string or the
number 0 is never looked up in the index at all (for every index, even one
holding auth id "0" or ""), receives the six blank derived columns, and
contributes nothing to `matchedCount`, `totalTrx`, `totalCommission` or
`totalNet`; its `Total` cell still contributes to `totalExisting`. -/
theorem spec_c10 (txs : List MsgTransaction) (r1 r2 : List Row) (row : Row)
    (h : getField row "Voucher No." = none ∨
      getField row "Voucher No." = some (.str "") ∨
      getField row "Voucher No." = some (.num (.val 0))) :
    (∀ m : MsgMap, rowMatch m row = none)
    ∧ (∀ k ∈ ["AUTH", "MERCHANT NUMBER", "TRX.AMT", "CARD NUMBER", "COM. AMOUNT", "NET. AMT"],
        getField (augmentRow (msgMap (uniqueMsgTransactions txs)) row) k = some (.str ""))
    ∧ (processFiles (r1 ++ row :: r2) txs).summary.matchedCount
        = (processFiles (r1 ++ r2) txs).summary.matchedCount
    ∧ (processFiles (r1 ++ row :: r2) txs).summary.totalTrx
        = (processFiles (r1 ++ r2) txs).summary.totalTrx
    ∧ (processFiles (r1 ++ row :: r2) txs).summary.totalCommission
        = (processFiles (r1 ++ r2) txs).summary.totalCommission
    ∧ (processFiles (r1 ++ row :: r2) txs).summary.totalNet
        = (processFiles (r1 ++ r2) txs).summary.totalNet
    ∧ (processFiles (r1 ++ row :: r2) txs).summary.totalExisting
        = JsNum.add ((processFiles (r1 ++ r2) txs).summary.totalExisting)
            (match existingNum row with
              | .nan => JsNum.val 0
              | v => v) := by
  have hnone := rowMatch_none_of_falsy row h
  have hml : ∀ m : MsgMap, matchedList m (r1 ++ row :: r2) = matchedList m (r1 ++ r2) := by
    intro m
    simp [matchedList, List.filterMap_append, List.filterMap_cons, hnone m]
  refine ⟨hnone, ?_, ?_, ?_, ?_, ?_, ?_⟩
  · intro k hk
    have hm := hnone (msgMap (uniqueMsgTransactions txs))
    simp only [augmentRow, hm, derivedPairs, List.foldl_cons, List.foldl_nil]
    fin_cases hk
    · rw [getField_setField_ne _ _ _ _ (by decide), getField_setField_ne _ _ _ _ (by decide),
        getField_setField_ne _ _ _ _ (by decide), getField_setField_ne _ _ _ _ (by decide),
        getField_setField_ne _ _ _ _ (by decide), getField_setField_same]
    · rw [getField_setField_ne _ _ _ _ (by decide), getField_setField_ne _ _ _ _ (by decide),
        getField_setField_ne _ _ _ _ (by decide), getField_setField_ne _ _ _ _ (by decide),
        getField_setField_same]
    · rw [getField_setField_ne _ _ _ _ (by decide), getField_setField_ne _ _ _ _ (by decide),
        getField_setField_ne _ _ _ _ (by decide), getField_setField_same]
    · rw [getField_setField_ne _ _ _ _ (by decide), getField_setField_ne _ _ _ _ (by decide),
        getField_setField_same]
    · rw [getField_setField_ne _ _ _ _ (by decide), getField_setField_same]
    · rw [getField_setField_same]
  · rw [processFiles_summary, processFiles_summary]
    simp [mkSummary, hml]
  · rw [processFiles_summary, processFiles_summary]
    simp [mkSummary, hml]
  · rw [processFiles_summary, processFiles_summary]
    simp [mkSummary, hml]
  · rw [processFiles_summary, processFiles_summary]
    simp [mkSummary, hml]
  · rw [processFiles_summary, processFiles_summary]
    simp only [mkSummary]
    rw [sumExisting_eq, sumExisting_eq]
    cases hx : existingNum row
    · simp only [hx, List.map_append, List.map_cons, List.sum_append, List.sum_cons, JsNum.add]
      congr 1
      simp [contribRat, hx]
    · simp only [hx, List.map_append, List.map_cons, List.sum_append, List.sum_cons, JsNum.add]
      congr 1
      simp only [contribRat, hx]
      ring

/-- Row for the C10 witness: an empty-string voucher with a numeric total. -/
def c10row : Row :=
  [("Voucher No.", CellValue.str ""), ("Total", CellValue.num (JsNum.val 5))]

/-- Transactions for the C10 witness: the index holds auth id "0". -/
def c10txs : List MsgTransaction :=
  [⟨"m", "c", .val 10, .val 1, .val 9, "0"⟩]

theorem spec_c10_witness :
    rowMatch (msgMap (uniqueMsgTransactions c10txs)) c10row = none
    ∧ getField (augmentRow (msgMap (uniqueMsgTransactions c10txs)) c10row) "AUTH"
        = some (.str "")
    ∧ (processFiles ([] ++ c10row :: []) c10txs).summary.matchedCount
        = (processFiles ([] ++ []) c10txs).summary.matchedCount
    ∧ (processFiles ([] ++ c10row :: []) c10txs).summary.totalExisting
        = JsNum.add ((processFiles ([] ++ []) c10txs).summary.totalExisting)
            (match existingNum c10row with
              | .nan => JsNum.val 0
              | v => v) := by
  have h := spec_c10 c10txs [] [] c10row (Or.inr (Or.inl (by with_unfolding_all rfl)))
  exact ⟨h.1 _, h.2.1 "AUTH" (by decide), h.2.2.1, h.2.2.2.2.2.2⟩

/-! ### Comparator lemmas -/

/-- Three-way comparison key of a row: blank-merchant flag, merchant tokens,
auth tokens. -/
def rowSortKey (r : Row) : Nat × List (Nat × Nat) × List (Nat × Nat) :=
  let m := cellForCompare (getField r "MERCHANT NUMBER")
  ((if m == "" then 1 else 0), strKey m, strKey (cellForCompare (getField r "AUTH")))

/-- Three-way comparison of row keys, lexicographically. -/
def keyCmp (x y : Nat × List (Nat × Nat) × List (Nat × Nat)) : Ordering :=
  match natCmp x.1 y.1 with
  | .eq =>
    match lexCmp x.2.1 y.2.1 with
    | .eq => lexCmp x.2.2 y.2.2
    | o => o
  | o => o

theorem natCmp_eq_iff {a b : Nat} : natCmp a b = .eq ↔ a = b := by
  unfold natCmp
  split_ifs <;> simp_all <;> omega

theorem natCmp_lt_iff {a b : Nat} : natCmp a b = .lt ↔ a < b := by
  unfold natCmp
  split_ifs <;> simp_all

theorem natCmp_gt_iff {a b : Nat} : natCmp a b = .gt ↔ b < a := by
  unfold natCmp
  split_ifs <;> simp_all <;> omega

theorem pairCmp_eq_iff {x y : Nat × Nat} : pairCmp x y = .eq ↔ x = y := by
  unfold pairCmp
  cases hx : natCmp x.1 y.1 <;> simp_all [natCmp_eq_iff, natCmp_lt_iff, natCmp_gt_iff]
  · intro h
    subst h
    omega
  · constructor
    · intro h
      exact Prod.ext hx h
    · intro h
      exact congrArg Prod.snd h
  · intro h
    subst h
    omega

theorem pairCmp_lt_iff {x y : Nat × Nat} :
    pairCmp x y = .lt ↔ x.1 < y.1 ∨ (x.1 = y.1 ∧ x.2 < y.2) := by
  unfold pairCmp
  cases hx : natCmp x.1 y.1 <;>
    simp_all [natCmp_eq_iff, natCmp_lt_iff, natCmp_gt_iff] <;> omega

theorem pairCmp_ne_gt_iff {x y : Nat × Nat} :
    pairCmp x y ≠ .gt ↔ x.1 < y.1 ∨ (x.1 = y.1 ∧ x.2 ≤ y.2) := by
  unfold pairCmp
  cases hx : natCmp x.1 y.1 <;>
    simp_all [natCmp_eq_iff, natCmp_lt_iff, natCmp_gt_iff] <;> omega

theorem pairCmp_lt_of_lt_of_ne_gt {x y z : Nat × Nat}
    (h1 : pairCmp x y = .lt) (h2 : pairCmp y z ≠ .gt) : pairCmp x z = .lt := by
  rw [pairCmp_lt_iff] at h1 ⊢
  rw [pairCmp_ne_gt_iff] at h2
  omega

theorem lexCmp_nil_ne_gt (z : List (Nat × Nat)) : lexCmp [] z ≠ .gt := by
  cases z <;> simp [lexCmp]

theorem lexCmp_eq_iff : ∀ {x y : List (Nat × Nat)}, lexCmp x y = .eq ↔ x = y := by
  intro x
  induction x with
  | nil => intro y; cases y <;> simp [lexCmp]
  | cons a as ih =>
    intro y
    cases y with
    | nil => simp [lexCmp]
    | cons b bs =>
      simp only [lexCmp]
      cases hab : pairCmp a b
      · constructor
        · intro h
          cases h
        · intro h
          rw [List.cons.injEq] at h
          rw [pairCmp_eq_iff.mpr h.1] at hab
          cases hab
      · rw [pairCmp_eq_iff] at hab
        simp [hab, ih]
      · constructor
        · intro h
          cases h
        · intro h
          rw [List.cons.injEq] at h
          rw [pairCmp_eq_iff.mpr h.1] at hab
          cases hab

theorem lexCmp_lt_of_lt_of_ne_gt :
    ∀ {x y z : List (Nat × Nat)}, lexCmp x y = .lt → lexCmp y z ≠ .gt → lexCmp x z = .lt := by
  intro x
  induction x with
  | nil =>
    intro y z h1 h2
    cases y with
    | nil => cases z <;> simp_all [lexCmp]
    | cons b bs =>
      cases z with
      | nil => simp [lexCmp] at h2
      | cons c cs => simp [lexCmp]
  | cons a as ih =>
    intro y z h1 h2
    cases y with
    | nil => simp [lexCmp] at h1
    | cons b bs =>
      cases z with
      | nil => simp [lexCmp] at h2
      | cons c cs =>
        simp only [lexCmp] at h1 h2 ⊢
        cases hab : pairCmp a b <;> rw [hab] at h1 <;> cases hbc : pairCmp b c <;> rw [hbc] at h2
        · rw [pairCmp_lt_of_lt_of_ne_gt hab (by simp [hbc])]
        · rw [pairCmp_eq_iff] at hbc
          rw [← hbc, hab]
        · exact absurd rfl h2
        · rw [pairCmp_eq_iff] at hab
          rw [hab, hbc]
        · rw [pairCmp_eq_iff] at hab hbc
          rw [hab, hbc, pairCmp_eq_iff.mpr rfl]
          exact ih h1 h2
        · exact absurd rfl h2
        · exact Ordering.noConfusion h1
        · exact Ordering.noConfusion h1
        · exact Ordering.noConfusion h1

theorem lexCmp_trans :
    ∀ {x y z : List (Nat × Nat)}, lexCmp x y ≠ .gt → lexCmp y z ≠ .gt → lexCmp x z ≠ .gt := by
  intro x
  induction x with
  | nil => intro y z _ _; exact lexCmp_nil_ne_gt z
  | cons a as ih =>
    intro y z h1 h2
    cases y with
    | nil => simp [lexCmp] at h1
    | cons b bs =>
      cases z with
      | nil => simp [lexCmp] at h2
      | cons c cs =>
        simp only [lexCmp] at h1 h2 ⊢
        cases hab : pairCmp a b <;> rw [hab] at h1 <;> cases hbc : pairCmp b c <;> rw [hbc] at h2
        · rw [pairCmp_lt_of_lt_of_ne_gt hab (by simp [hbc])]
          simp
        · rw [pairCmp_eq_iff] at hbc
          rw [← hbc, hab]
          simp
        · exact absurd rfl h2
        · rw [pairCmp_eq_iff] at hab
          rw [hab, hbc]
          simp
        · rw [pairCmp_eq_iff] at hab hbc
          rw [hab, hbc, pairCmp_eq_iff.mpr rfl]
          exact ih h1 h2
        · exact absurd rfl h2
        · exact absurd rfl h1
        · exact absurd rfl h1
        · exact absurd rfl h1

theorem natCmp_swap (a b : Nat) : natCmp b a = (natCmp a b).swap := by
  unfold natCmp
  split_ifs <;> simp_all [Ordering.swap] <;> omega

theorem pairCmp_swap (x y : Nat × Nat) : pairCmp y x = (pairCmp x y).swap := by
  unfold pairCmp
  rw [natCmp_swap x.1 y.1, natCmp_swap x.2 y.2]
  cases natCmp x.1 y.1 <;> simp [Ordering.swap]

theorem lexCmp_swap : ∀ (x y : List (Nat × Nat)), lexCmp y x = (lexCmp x y).swap := by
  intro x
  induction x with
  | nil => intro y; cases y <;> simp [lexCmp, Ordering.swap]
  | cons a as ih =>
    intro y
    cases y with
    | nil => simp [lexCmp, Ordering.swap]
    | cons b bs =>
      simp only [lexCmp]
      rw [pairCmp_swap a b, ih bs]
      cases pairCmp a b <;> simp [Ordering.swap]

theorem keyCmp_swap (x y : Nat × List (Nat × Nat) × List (Nat × Nat)) :
    keyCmp y x = (keyCmp x y).swap := by
  unfold keyCmp
  rw [natCmp_swap x.1 y.1, lexCmp_swap x.2.1 y.2.1, lexCmp_swap x.2.2 y.2.2]
  cases natCmp x.1 y.1 <;> cases lexCmp x.2.1 y.2.1 <;> simp [Ordering.swap]

theorem keyCmp_trans {x y z : Nat × List (Nat × Nat) × List (Nat × Nat)}
    (h1 : keyCmp x y ≠ .gt) (h2 : keyCmp y z ≠ .gt) : keyCmp x z ≠ .gt := by
  unfold keyCmp at h1 h2 ⊢
  cases hab : natCmp x.1 y.1 <;> rw [hab] at h1 <;>
    cases hbc : natCmp y.1 z.1 <;> rw [hbc] at h2
  · rw [natCmp_lt_iff] at hab hbc
    rw [natCmp_lt_iff.mpr (lt_trans hab hbc)]
    simp
  · rw [natCmp_eq_iff] at hbc
    rw [← hbc, hab]
    simp
  · exact absurd rfl h2
  · rw [natCmp_eq_iff] at hab
    rw [hab, hbc]
    simp
  · rw [natCmp_eq_iff] at hab hbc
    rw [hab, hbc, natCmp_eq_iff.mpr rfl]
    cases hl1 : lexCmp x.2.1 y.2.1 <;> rw [hl1] at h1 <;>
      cases hl2 : lexCmp y.2.1 z.2.1 <;> rw [hl2] at h2
    · rw [lexCmp_lt_of_lt_of_ne_gt hl1 (by simp [hl2])]
      simp
    · rw [lexCmp_eq_iff] at hl2
      rw [← hl2, hl1]
      simp
    · exact absurd rfl h2
    · rw [lexCmp_eq_iff] at hl1
      rw [hl1, hl2]
      simp
    · rw [lexCmp_eq_iff] at hl1 hl2
      rw [hl1, hl2, lexCmp_eq_iff.mpr rfl]
      exact lexCmp_trans h1 h2
    · exact absurd rfl h2
    · exact absurd rfl h1
    · exact absurd rfl h1
    · exact absurd rfl h1
  · exact absurd rfl h2
  · exact absurd rfl h1
  · exact absurd rfl h1
  · exact absurd rfl h1

theorem byMerchantNumber_eq_key (a b : Row) :
    byMerchantNumber a b = ordToInt (keyCmp (rowSortKey a) (rowSortKey b)) := by
  unfold byMerchantNumber rowSortKey keyCmp localeCompareNumeric
  cases hA : cellForCompare (getField a "MERCHANT NUMBER") == "" <;>
    cases hB : cellForCompare (getField b "MERCHANT NUMBER") == ""
  · simp only [hA, hB, Bool.false_and, Bool.and_false, Bool.not_false, if_false,
      Bool.false_eq_true]
    cases hL : lexCmp (strKey (cellForCompare (getField a "MERCHANT NUMBER")))
        (strKey (cellForCompare (getField b "MERCHANT NUMBER"))) <;>
      simp [hL, ordToInt, natCmp]
  · simp only [hA, hB, Bool.not_true, Bool.false_and, Bool.and_false, Bool.and_true]
    simp [ordToInt, natCmp]
  · simp only [hA, hB, Bool.not_false, Bool.true_and, Bool.and_true]
    simp [ordToInt, natCmp]
  · simp only [hA, hB, Bool.not_true, Bool.true_and, Bool.and_false]
    rw [eq_of_beq hA, eq_of_beq hB]
    simp [ordToInt, natCmp, strKey, lexCmp, TokState.mk, List.foldl]

theorem ordToInt_le_zero_iff {o : Ordering} : ordToInt o ≤ 0 ↔ o ≠ .gt := by
  cases o <;> simp [ordToInt]

theorem rowLe_iff (a b : Row) :
    rowLe a b ↔ keyCmp (rowSortKey a) (rowSortKey b) ≠ .gt := by
  unfold rowLe
  rw [byMerchantNumber_eq_key, ordToInt_le_zero_iff]

instance : IsTrans Row rowLe :=
  ⟨fun a b c h1 h2 =>
    (rowLe_iff a c).mpr (keyCmp_trans ((rowLe_iff a b).mp h1) ((rowLe_iff b c).mp h2))⟩

instance : IsTotal Row rowLe := by
  constructor
  intro a b
  rw [rowLe_iff, rowLe_iff, keyCmp_swap (rowSortKey b) (rowSortKey a)]
  cases keyCmp (rowSortKey b) (rowSortKey a) <;> simp [Ordering.swap]

/-! ### Output sections -/

theorem processFiles_take (rows : List Row) (txs : List MsgTransaction) :
    (processFiles rows txs).updatedData.take rows.length
      = sortRows (updatedData (msgMap (uniqueMsgTransactions txs)) rows) := by
  show (sortRows (updatedData (msgMap (uniqueMsgTransactions txs)) rows) ++
      totalsRow (mkSummary (msgMap (uniqueMsgTransactions txs)) rows) ::
        (List.replicate 5 spacerRow ++
          unmatchedHeaderRow :: sortRows (unmatchedRows (msgMap (uniqueMsgTransactions txs))
            rows (uniqueMsgTransactions txs)))).take rows.length = _
  exact List.take_left' (by simp [sortRows, updatedData])

theorem processFiles_drop (rows : List Row) (txs : List MsgTransaction) :
    (processFiles rows txs).updatedData.drop (rows.length + 7)
      = sortRows (unmatchedRows (msgMap (uniqueMsgTransactions txs)) rows
          (uniqueMsgTransactions txs)) := by
  have hassoc :
      (processFiles rows txs).updatedData
        = (sortRows (updatedData (msgMap (uniqueMsgTransactions txs)) rows) ++
            (totalsRow (mkSummary (msgMap (uniqueMsgTransactions txs)) rows) ::
              (List.replicate 5 spacerRow ++ [unmatchedHeaderRow]))) ++
            sortRows (unmatchedRows (msgMap (uniqueMsgTransactions txs)) rows
              (uniqueMsgTransactions txs)) := by
    show sortRows _ ++ _ :: (List.replicate 5 spacerRow ++ unmatchedHeaderRow :: sortRows _) = _
    simp
  rw [hassoc]
  exact List.drop_left' (by simp [sortRows, updatedData])

/-- Transactions for the C7 concrete example: merchant numbers 10, 2, blank
and 10 with ascending auth ids chosen to exhibit the tie-break. -/
def c7txs : List MsgTransaction :=
  [⟨"10", "c1", .val 1, .val 0, .val 1, "5"⟩,
    ⟨"2", "c2", .val 1, .val 0, .val 1, "1"⟩,
    ⟨"", "c3", .val 1, .val 0, .val 1, "9"⟩,
    ⟨"10", "c4", .val 1, .val 0, .val 1, "3"⟩]

/-- C7: both the augmented section and the unmatched appendix of the output
are sorted by the merchant-number comparator (numeric-aware, blank merchant
numbers last, ties broken by auth id); concretely, unmatched rows with
merchant numbers "10", "2", "", "10" come out ordered "2", "10", "10", ""
with the two "10" rows ordered by ascending auth id. -/
theorem spec_c7 :
    (∀ (rows : List Row) (txs : List MsgTransaction),
        ((processFiles rows txs).updatedData.take rows.length).Sorted rowLe
        ∧ ((processFiles rows txs).updatedData.drop (rows.length + 7)).Sorted rowLe)
    ∧ ((processFiles [] c7txs).updatedData.drop 7).map
        (fun r => (cellForCompare (getField r "MERCHANT NUMBER"),
          cellForCompare (getField r "AUTH")))
      = [("2", "1"), ("10", "3"), ("10", "5"), ("", "9")] := by
  refine ⟨fun rows txs => ⟨?_, ?_⟩, ?_⟩
  · rw [processFiles_take]
    exact List.sorted_insertionSort rowLe _
  · rw [processFiles_drop]
    exact List.sorted_insertionSort rowLe _
  · with_unfolding_all rfl

/-! ### Summary accounting -/

theorem countP_sortRows (p : Row → Bool) (l : List Row) :
    (sortRows l).countP p = l.countP p :=
  (List.perm_insertionSort rowLe l).countP_eq p

theorem getField_augmentRow_AUTH (m : MsgMap) (row : Row) :
    getField (augmentRow m row) "AUTH"
      = some (.str (match rowMatch m row with
          | some t => t.authId
          | none => "")) := by
  cases hm : rowMatch m row <;>
    simp only [augmentRow, hm, derivedPairs, List.foldl_cons, List.foldl_nil] <;>
    rw [getField_setField_ne _ _ _ _ (by decide), getField_setField_ne _ _ _ _ (by decide),
      getField_setField_ne _ _ _ _ (by decide), getField_setField_ne _ _ _ _ (by decide),
      getField_setField_ne _ _ _ _ (by decide), getField_setField_same]

theorem countP_matched_eq (m : MsgMap) :
    ∀ rows : List Row, (∀ t ∈ matchedList m rows, t.authId ≠ "") →
      (matchedList m rows).length
        = (rows.map (augmentRow m)).countP
            (fun r => decide (getField r "AUTH" ≠ some (.str ""))) := by
  intro rows
  induction rows with
  | nil => intro _; rfl
  | cons row rs ih =>
    intro h
    rw [List.map_cons, List.countP_cons]
    cases hm : rowMatch m row
    · have hml : matchedList m (row :: rs) = matchedList m rs := by
        simp [matchedList, List.filterMap_cons, hm]
      have hpred : (decide (getField (augmentRow m row) "AUTH" ≠ some (CellValue.str ""))) = false := by
        rw [getField_augmentRow_AUTH, hm]
        simp
      rw [hml, hpred, ih (fun t ht => h t (by rwa [hml]))]
      simp
    · rename_i t
      have hml : matchedList m (row :: rs) = t :: matchedList m rs := by
        simp [matchedList, List.filterMap_cons, hm]
      have hta : t.authId ≠ "" := h t (by rw [hml]; exact List.mem_cons_self _ _)
      have hpred : (decide (getField (augmentRow m row) "AUTH" ≠ some (CellValue.str ""))) = true := by
        rw [getField_augmentRow_AUTH, hm]
        simp only [decide_eq_true_eq, ne_eq, Option.some.injEq]
        intro hc
        exact hta (CellValue.str.inj hc)
      rw [hml, hpred, List.length_cons,
        ih (fun u hu => h u (by rw [hml]; exact List.mem_cons_of_mem _ hu))]
      simp

/-- C3 (amended): `totalTrx` sums `tranAmount` once per matched spreadsheet
row; when no two rows match the same transaction this is the sum over the
set of matched transactions, and when no matched transaction has an empty
auth id, `matchedCount` is the number of augmented output rows with a
non-blank AUTH column. -/
theorem spec_c3 (rows : List Row) (txs : List MsgTransaction)
    (h1 : (matchedList (msgMap (uniqueMsgTransactions txs)) rows).Nodup)
    (h2 : ∀ t ∈ matchedList (msgMap (uniqueMsgTransactions txs)) rows, t.authId ≠ "") :
    (processFiles rows txs).summary.totalTrx
      = jsSum (((matchedList (msgMap (uniqueMsgTransactions txs)) rows).dedup).map
          (fun t => t.tranAmount))
    ∧ (processFiles rows txs).summary.matchedCount
      = ((processFiles rows txs).updatedData.take rows.length).countP
          (fun r => decide (getField r "AUTH" ≠ some (.str ""))) := by
  constructor
  · rw [List.Nodup.dedup h1]
    rfl
  · rw [processFiles_take, countP_sortRows, processFiles_summary]
    show (matchedList _ rows).length = _
    unfold updatedData
    exact countP_matched_eq _ rows h2

/-- Transaction list for the C3 counterexample and witness. -/
def c3txs : List MsgTransaction := [⟨"m", "c", .val 10, .val 1, .val 9, "9"⟩]

/-- Two spreadsheet rows carrying the same voucher number. -/
def c3rows : List Row :=
  [[("Voucher No.", CellValue.str "9")], [("Voucher No.", CellValue.str "9")]]

/-- C3 counterexample: with two rows sharing voucher "9" and one matching
transaction of amount 10, the summary's `totalTrx` is 20, not the sum 10
over the set of matched transactions (each counted once) demanded by the
claim. -/
theorem spec_c3_cex :
    (processFiles c3rows c3txs).summary.totalTrx = JsNum.val 20
    ∧ jsSum (((matchedList (msgMap (uniqueMsgTransactions c3txs)) c3rows).dedup).map
        (fun t => t.tranAmount)) = JsNum.val 10
    ∧ (processFiles c3rows c3txs).summary.totalTrx
        ≠ jsSum (((matchedList (msgMap (uniqueMsgTransactions c3txs)) c3rows).dedup).map
            (fun t => t.tranAmount)) := by
  refine ⟨?_, ?_, ?_⟩
  · with_unfolding_all rfl
  · with_unfolding_all rfl
  · with_unfolding_all exact of_decide_eq_true rfl

/-- A single row for the C3 witness. -/
def c3wrows : List Row := [[("Voucher No.", CellValue.str "9")]]

theorem spec_c3_witness :
    (processFiles c3wrows c3txs).summary.totalTrx
      = jsSum (((matchedList (msgMap (uniqueMsgTransactions c3txs)) c3wrows).dedup).map
          (fun t => t.tranAmount))
    ∧ (processFiles c3wrows c3txs).summary.matchedCount
      = ((processFiles c3wrows c3txs).updatedData.take c3wrows.length).countP
          (fun r => decide (getField r "AUTH" ≠ some (.str ""))) :=
  spec_c3 c3wrows c3txs (by with_unfolding_all exact of_decide_eq_true rfl)
    (by with_unfolding_all exact of_decide_eq_true rfl)

/-! ### Row augmentation as pure extension -/

theorem setField_append (r : Row) (k : String) (v : CellValue)
    (h : r.any (fun p => p.1 == k) = false) : setField r k v = r ++ [(k, v)] := by
  unfold setField
  rw [h]
  rfl

theorem any_key_false (row : Row) (k : String) (h : ∀ kv ∈ row, ¬ kv.1 = k) :
    row.any (fun p => p.1 == k) = false := by
  rw [Bool.eq_false_iff]
  intro hc
  obtain ⟨x, hx, hpx⟩ := List.any_eq_true.mp hc
  exact h x hx (eq_of_beq hpx)

theorem foldl_setField_of_disjoint :
    ∀ (pairs : List (String × CellValue)) (r : Row),
      (∀ kv ∈ pairs, r.any (fun p => p.1 == kv.1) = false) →
      pairs.Pairwise (fun a b => (a.1 == b.1) = false) →
      pairs.foldl (fun acc kv => setField acc kv.1 kv.2) r = r ++ pairs := by
  intro pairs
  induction pairs with
  | nil => intro r _ _; simp
  | cons kv ps ih =>
    intro r hnot hpw
    rw [List.foldl_cons, setField_append _ _ _ (hnot kv (List.mem_cons_self _ _))]
    have hstep : ∀ kv' ∈ ps, (r ++ [kv]).any (fun p => p.1 == kv'.1) = false := by
      intro kv' hkv'
      rw [List.any_append, hnot kv' (List.mem_cons_of_mem _ hkv')]
      have hne : (kv.1 == kv'.1) = false := (List.pairwise_cons.mp hpw).1 kv' hkv'
      simp [List.any, hne]
    rw [ih (r ++ [kv]) hstep (List.Pairwise.of_cons hpw)]
    simp

/-- C8 (amended): the augmented section is, up to the sort, exactly one new
row per input row; and for a row none of whose columns uses one of the six
derived names, the augmented row is the input row with every original
column unchanged, extended with exactly the six derived columns. -/
theorem spec_c8 (rows : List Row) (txs : List MsgTransaction) (row : Row)
    (hdisj : ∀ kv ∈ row, kv.1 ∉
      (["AUTH", "MERCHANT NUMBER", "TRX.AMT", "CARD NUMBER", "COM. AMOUNT", "NET. AMT"] :
        List String)) :
    ((processFiles rows txs).updatedData.take rows.length).Perm
      (rows.map (augmentRow (msgMap (uniqueMsgTransactions txs))))
    ∧ augmentRow (msgMap (uniqueMsgTransactions txs)) row
      = row ++ derivedPairs (rowMatch (msgMap (uniqueMsgTransactions txs)) row) := by
  have hk : ∀ k, k ∈
      (["AUTH", "MERCHANT NUMBER", "TRX.AMT", "CARD NUMBER", "COM. AMOUNT", "NET. AMT"] :
        List String) →
      row.any (fun p => p.1 == k) = false :=
    fun k hkmem => any_key_false row k (fun kv hkv heq => hdisj kv hkv (heq ▸ hkmem))
  constructor
  · rw [processFiles_take]
    exact List.perm_insertionSort rowLe _
  · cases hm : rowMatch (msgMap (uniqueMsgTransactions txs)) row
    · simp only [augmentRow, hm, derivedPairs]
      refine foldl_setField_of_disjoint _ row ?_ ?_
      · intro kv hkv
        fin_cases hkv <;> exact hk _ (by decide)
      · decide
    · simp only [augmentRow, hm, derivedPairs]
      refine foldl_setField_of_disjoint _ row ?_ ?_
      · intro kv hkv
        fin_cases hkv <;> exact hk _ (by simp)
      · simp [List.pairwise_cons]

/-- C8 counterexample: an input row that already has an AUTH column is not
passed through unchanged — the unmatched augmentation overwrites it with a
blank, so the output row does not contain every original column with its
value unchanged. -/
theorem spec_c8_cex :
    ("AUTH", CellValue.str "x") ∈ ([("AUTH", CellValue.str "x")] : Row)
    ∧ getField ((processFiles [[("AUTH", CellValue.str "x")]] []).updatedData.headD [])
        "AUTH" = some (CellValue.str "")
    ∧ some (CellValue.str "") ≠ some (CellValue.str "x") := by
  refine ⟨by decide, by with_unfolding_all rfl, by decide⟩

/-- Row and transactions for the C8 witness. -/
def c8row : Row := [("Voucher No.", CellValue.str "9"), ("Total", CellValue.num (JsNum.val 3))]

def c8txs : List MsgTransaction := [⟨"m", "c", .val 10, .val 1, .val 9, "9"⟩]

theorem spec_c8_witness :
    ((processFiles [c8row] c8txs).updatedData.take [c8row].length).Perm
      ([c8row].map (augmentRow (msgMap (uniqueMsgTransactions c8txs))))
    ∧ augmentRow (msgMap (uniqueMsgTransactions c8txs)) c8row
      = c8row ++ derivedPairs (rowMatch (msgMap (uniqueMsgTransactions c8txs)) c8row) :=
  spec_c8 [c8row] c8txs c8row (by decide)

/-! ### Occurrence of auth ids in the output table -/

theorem getField_mkUnmatchedRow_AUTH (t : MsgTransaction) :
    getField (mkUnmatchedRow t) "AUTH" = some (.str t.authId) := rfl

theorem countP_aug_eq (m : MsgMap) (A : String) (hA : A ≠ "") :
    ∀ rows : List Row,
      (rows.map (augmentRow m)).countP (fun r => decide (getField r "AUTH" = some (.str A)))
        = (matchedList m rows).countP (fun t => decide (t.authId = A)) := by
  intro rows
  induction rows with
  | nil => rfl
  | cons row rs ih =>
    rw [List.map_cons, List.countP_cons]
    cases hm : rowMatch m row
    · have hml : matchedList m (row :: rs) = matchedList m rs := by
        simp [matchedList, List.filterMap_cons, hm]
      have hpred :
          (decide (getField (augmentRow m row) "AUTH" = some (CellValue.str A))) = false := by
        rw [getField_augmentRow_AUTH, hm]
        simp only [decide_eq_false_iff_not, ne_eq, Option.some.injEq]
        intro hc
        exact hA (CellValue.str.inj hc).symm
      rw [hml, hpred, ih]
      simp
    · rename_i t
      have hml : matchedList m (row :: rs) = t :: matchedList m rs := by
        simp [matchedList, List.filterMap_cons, hm]
      have hpred :
          (decide (getField (augmentRow m row) "AUTH" = some (CellValue.str A)))
            = decide (t.authId = A) := by
        rw [getField_augmentRow_AUTH, hm]
        by_cases h : t.authId = A <;> simp [h]
      rw [hml, hpred, List.countP_cons, ih]

theorem countP_unmatched_eq (m : MsgMap) (rows : List Row) (uniq : List MsgTransaction)
    (A : String) :
    (unmatchedRows m rows uniq).countP (fun r => decide (getField r "AUTH" = some (.str A)))
      = (uniq.filter (fun t => !((matchedAuthIds m rows).contains t.authId))).countP
          (fun t => decide (t.authId = A)) := by
  unfold unmatchedRows
  rw [List.countP_map]
  refine List.countP_congr ?_
  intro t _
  show (decide (getField (mkUnmatchedRow t) "AUTH" = some (CellValue.str A))) = true ↔ _
  rw [getField_mkUnmatchedRow_AUTH]
  by_cases h : t.authId = A <;> simp [h]

/-- C1 (amended): an auth id `A` of the deduplicated transaction set appears
in the output table exactly once — either in exactly one augmented row or in
exactly one unmatched appendix row, never both — provided the deduplicated
auth ids are pairwise distinct, at most one spreadsheet row matches a
transaction with auth id `A`, and `A` is nonempty. -/
theorem spec_c1 (rows : List Row) (txs : List MsgTransaction) (A : String)
    (hmem : A ∈ (uniqueMsgTransactions txs).map (fun t => t.authId))
    (hnd : ((uniqueMsgTransactions txs).map (fun t => t.authId)).Nodup)
    (hres : (matchedList (msgMap (uniqueMsgTransactions txs)) rows).countP
        (fun t => decide (t.authId = A)) ≤ 1)
    (hA : A ≠ "") :
    ((processFiles rows txs).updatedData.take rows.length).countP
        (fun r => decide (getField r "AUTH" = some (.str A)))
      + ((processFiles rows txs).updatedData.drop (rows.length + 7)).countP
          (fun r => decide (getField r "AUTH" = some (.str A)))
      = 1 := by
  rw [processFiles_take, processFiles_drop, countP_sortRows, countP_sortRows]
  unfold updatedData
  rw [countP_aug_eq (msgMap (uniqueMsgTransactions txs)) A hA rows,
    countP_unmatched_eq (msgMap (uniqueMsgTransactions txs)) rows (uniqueMsgTransactions txs) A,
    List.countP_filter]
  by_cases hin : A ∈ matchedAuthIds (msgMap (uniqueMsgTransactions txs)) rows
  · obtain ⟨t, ht, hta⟩ := List.mem_map.mp hin
    have hpos : 0 < (matchedList (msgMap (uniqueMsgTransactions txs)) rows).countP
        (fun t => decide (t.authId = A)) := by
      rw [List.countP_pos_iff]
      exact ⟨t, ht, by simp [hta]⟩
    have happ : (uniqueMsgTransactions txs).countP
        (fun t => decide (t.authId = A) &&
          !((matchedAuthIds (msgMap (uniqueMsgTransactions txs)) rows).contains t.authId)) = 0 := by
      rw [List.countP_eq_zero]
      intro u _ hpu
      rw [Bool.and_eq_true] at hpu
      have hua : u.authId = A := of_decide_eq_true hpu.1
      have hcon : (matchedAuthIds (msgMap (uniqueMsgTransactions txs)) rows).contains u.authId
          = true := by
        rw [hua]
        exact List.elem_iff.mpr hin
      rw [hcon] at hpu
      exact absurd hpu.2 (by simp)
    omega
  · have haug : (matchedList (msgMap (uniqueMsgTransactions txs)) rows).countP
        (fun t => decide (t.authId = A)) = 0 := by
      rw [List.countP_eq_zero]
      intro u hu hpu
      exact hin (List.mem_map.mpr ⟨u, hu, of_decide_eq_true hpu⟩)
    have hsame : (uniqueMsgTransactions txs).countP
        (fun t => decide (t.authId = A) &&
          !((matchedAuthIds (msgMap (uniqueMsgTransactions txs)) rows).contains t.authId))
        = (uniqueMsgTransactions txs).countP (fun t => decide (t.authId = A)) := by
      refine List.countP_congr ?_
      intro u _
      by_cases h : u.authId = A
      · have hcon : (matchedAuthIds (msgMap (uniqueMsgTransactions txs)) rows).contains u.authId
            = false := by
          rw [h]
          rw [Bool.eq_false_iff]
          intro hc
          exact hin (List.elem_iff.mp hc)
        simp [h, hcon]
        exact hin
      · simp [h]
    have hone : (uniqueMsgTransactions txs).countP (fun t => decide (t.authId = A)) = 1 := by
      have hcnt := List.count_eq_one_of_mem hnd hmem
      rw [← hcnt]
      show _ = ((uniqueMsgTransactions txs).map (fun t => t.authId)).countP (fun s => s == A)
      rw [List.countP_map]
      refine List.countP_congr ?_
      intro u _
      show decide (u.authId = A) = true ↔ ((fun s => s == A) ∘ fun t => t.authId) u = true
      by_cases h : u.authId = A <;> simp [h]
    rw [hsame, hone, haug]

/-- Rows and transactions for the C1 witness. -/
def c1rows : List Row := [[("Voucher No.", CellValue.str "5")]]

def c1txs : List MsgTransaction := [⟨"m", "c", .val 1, .val 0, .val 1, "5"⟩]

theorem spec_c1_witness :
    ((processFiles c1rows c1txs).updatedData.take c1rows.length).countP
        (fun r => decide (getField r "AUTH" = some (.str "5")))
      + ((processFiles c1rows c1txs).updatedData.drop (c1rows.length + 7)).countP
          (fun r => decide (getField r "AUTH" = some (.str "5")))
      = 1 :=
  spec_c1 c1rows c1txs "5" (by with_unfolding_all exact of_decide_eq_true rfl)
    (by with_unfolding_all exact of_decide_eq_true rfl)
    (by with_unfolding_all exact of_decide_eq_true rfl)
    (by decide)

/-- Two deduplicated transactions sharing auth id "7" (different cards). -/
def c1cextxs : List MsgTransaction :=
  [⟨"m", "ca", .val 1, .val 0, .val 1, "7"⟩, ⟨"m", "cb", .val 2, .val 0, .val 2, "7"⟩]

/-- C1 counterexample: auth id "7" appears in the deduplicated set but shows
up in two standalone appendix rows of the output (and in no augmented row),
so it does not appear exactly once. -/
theorem spec_c1_cex :
    "7" ∈ (uniqueMsgTransactions c1cextxs).map (fun t => t.authId)
    ∧ ((processFiles [] c1cextxs).updatedData.drop (([] : List Row).length + 7)).countP
        (fun r => decide (getField r "AUTH" = some (.str "7"))) = 2
    ∧ ((processFiles [] c1cextxs).updatedData.take ([] : List Row).length).countP
        (fun r => decide (getField r "AUTH" = some (.str "7"))) = 0 := by
  refine ⟨?_, ?_, ?_⟩ <;> with_unfolding_all exact of_decide_eq_true rfl
